import Mathlib

/-!
Shallow embedding of the recording aggregation & normalization engine of
`src/hooks/useRecordings.ts` (the f5-recordingmanager repository), together
with proofs of the specification claims about it.

JavaScript conventions are modelled explicitly:
* `undefined`/`null` string fields are `Option String` (`none` = nullish);
* the `??` operator is `Option.orElse` restricted to nullish values;
* the `||` operator additionally treats the empty string, the number `0`
  and `NaN` as falsy — helpers `jsOr`, `jsOrStr`, `jsOrOpt`, `jsOrNum`;
* JavaScript numbers coming from JSON are modelled as `Rat` (JSON cannot
  encode `NaN`/`Infinity`; a separate `JsSize.nan` constructor models an
  upstream `NaN` value fed to the size aggregation guard);
* `Date` parsing/printing is an environment parameter `DateOps`
  (`parse s = none` models an invalid date, i.e. `isNaN(d.getTime())`).
-/

/-- JavaScript `a || b` where `a : string | undefined` and `b : string`:
the empty string and nullish values fall through to `b`. -/
def jsOr (a : Option String) (b : String) : String :=
  match a with
  | some s => if s = "" then b else s
  | none => b

/-- JavaScript `a || b` on two plain strings. -/
def jsOrStr (a b : String) : String :=
  if a = "" then b else a

/-- JavaScript `a || b` where both sides are `string | undefined`
(used for `firstStartIso || m.start_time`). -/
def jsOrOpt (a b : Option String) : Option String :=
  match a with
  | some s => if s = "" then b else some s
  | none => b

/-- Truthiness of a `string | null` pagination token: `null`, `undefined`
and the empty string are falsy (`while (nextToken && ...)`). -/
def jsTruthyTok (a : Option String) : Bool :=
  match a with
  | some s => !(s = "")
  | none => false

/-- JavaScript `String(x)` applied to a `number | undefined`
(`String(m.id)` in the identifier fallback). -/
def jsNumString (a : Option Int) : String :=
  match a with
  | some n => toString n
  | none => "undefined"

/-- A JSON-borne `file_size` value as seen by the duck-typed guard
`typeof f.file_size === "number" && !isNaN(f.file_size)`. -/
inductive JsSize where
  | num (q : Rat)
  | nan
  | str (s : String)
  | undef
deriving DecidableEq

/-- The owner object synthesized for aggregated-source records
(`{ type: "user", id: m.host_id, name: ... }`). -/
structure Owner where
  type : String
  id : Option String
  name : String
deriving DecidableEq

/-- The site object (`{ id: "", name: "Meeting" }` for meetings). -/
structure Site where
  id : String
  name : String
deriving DecidableEq

/-- One embedded file descriptor of a meeting session
(`recording_files` element: `recording_start`, `file_size`, `file_type`). -/
structure RecordingFile where
  recording_start : Option String
  file_size : JsSize
  file_type : Option String
deriving DecidableEq

/-- Modelled from the spec: the repository's `types.ts` (which declares the
upstream `Recording` shape of the paginated phone source) is not under
`src/`; per §3 of the spec, paginated-source records carry their own
identifier, caller/callee data and a single direct download reference, and
no `topic`/`host_email`/`files_types` aggregates. -/
structure PhoneRec where
  id : String
  caller_number : String
  callee_number : String
  date_time : Option String
  end_time : Option String
  duration : Int
  recording_type : String
  download_url : Option String
  caller_name : Option String
  callee_name : Option String
  owner : Option Owner
  site : Option Site
  direction : String
deriving DecidableEq

/-- The Canonical Record all sources normalize into (the fields set by
`fetchAllPhoneRecordings` via `{...r, source: "phone"}` and by the object
literal built in `fetchAllMeetingRecordings`). -/
structure Recording where
  id : String
  caller_number : String
  callee_number : String
  date_time : Option String
  end_time : Option String
  duration : Int
  recording_type : String
  download_url : Option String
  caller_name : Option String
  callee_name : Option String
  owner : Option Owner
  site : Option Site
  direction : String
  source : String
  topic : Option String
  host_name : Option String
  host_email : Option String
  meetingId : Option String
  file_size : Option Rat
  recording_files : Option (List RecordingFile)
  files_count : Option Nat
  files_types : Option (List String)
  autoDelete : Option Bool
  autoDeleteDate : Option String
deriving DecidableEq

/-- One page of the paginated phone endpoint (the `ApiResponse` shape the
client reads: `from?`, `to?`, `next_page_token?`, `recordings?`). -/
structure ApiResponse where
  from_ : Option String
  to_ : Option String
  next_page_token : Option String
  recordings : Option (List PhoneRec)
deriving DecidableEq

/-- One meeting session of the aggregated meeting endpoint, duck-typed:
every identity field may be absent (`mm: any` probing in the source). -/
structure Meeting where
  uuid : Option String
  id : Option Int
  topic : Option String
  start_time : Option String
  duration : Option Int
  host_id : Option String
  hostEmail : Option String
  hostName : Option String
  host_email : Option String
  owner_email : Option String
  owner_name : Option String
  recording_files : Option (List RecordingFile)
  autoDelete : Option Bool
  auto_delete : Option Bool
  autoDeleteDate : Option String
  auto_delete_date : Option String
deriving DecidableEq

/-- The `MeetingApiResponse` shape (`from?`, `to?`, `meetings?`). -/
structure MeetingApiResponse where
  from_ : Option String
  to_ : Option String
  meetings : Option (List Meeting)
deriving DecidableEq

/-- The `{from, to, recordings}` object returned by both fetchers. -/
structure FetchResult where
  from_ : String
  to_ : String
  recordings : List Recording
deriving DecidableEq

/-- The environment's date library: `parse` is `new Date(s).getTime()`
(`none` when the date is invalid), `toISO` is `Date.prototype.toISOString`
applied to a valid epoch value. -/
structure DateOps where
  parse : String → Option Int
  toISO : Int → String

/-- Safety cap on chained phone pages (`const MAX_PHONE_PAGES = 20`). -/
def MAX_PHONE_PAGES : Nat := 20

/-- `{...r, source: "phone"}`: spread the upstream phone record into the
canonical shape and tag it; fields the phone upstream does not carry stay
absent. -/
def tagPhone (r : PhoneRec) : Recording :=
  { id := r.id
    caller_number := r.caller_number
    callee_number := r.callee_number
    date_time := r.date_time
    end_time := r.end_time
    duration := r.duration
    recording_type := r.recording_type
    download_url := r.download_url
    caller_name := r.caller_name
    callee_name := r.callee_name
    owner := r.owner
    site := r.site
    direction := r.direction
    source := "phone"
    topic := none
    host_name := none
    host_email := none
    meetingId := none
    file_size := none
    recording_files := none
    files_count := none
    files_types := none
    autoDelete := none
    autoDeleteDate := none }

/-- `(apiPage.recordings ?? []).map((r) => ({...r, source: "phone"}))`. -/
def pageRecs (page : ApiResponse) : List Recording :=
  (page.recordings.getD []).map tagPhone

/-- The do/while pagination loop of `fetchAllPhoneRecordings`.

The environment is a function `pages` from the 0-based request index to the
response of that request (requests are strictly sequential, so the index
determines the request).  `loops`, `allRecs`, `apiFrom`, `apiTo` are the
loop variables of the source; the loop condition
`nextToken && loops < MAX_PHONE_PAGES` is kept verbatim.  `fuel` is a
structural-recursion budget counting the page requests the loop may still
chain: the entry point passes `fuel = MAX_PHONE_PAGES`, which always
dominates the remaining iteration count (`loops` starts at 0 and the
verbatim `loops + 1 < MAX_PHONE_PAGES` test stops the loop first), so the
fuel-exhausted equation — body once, then stop — is unreachable from the
entry point.  The returned `Nat` counts the page requests issued. -/
def phoneLoop {ε : Type} (pages : Nat → Except ε ApiResponse)
    (reqFrom reqTo : String) :
    Nat → Nat → List Recording → Option String → Option String →
    Except ε (FetchResult × Nat)
  | 0, loops, allRecs, apiFrom, apiTo =>
    match pages loops with
    | .error e => .error e
    | .ok apiPage =>
      .ok ({ from_ := (apiFrom <|> (apiPage.from_ <|> some reqFrom)).getD reqFrom
             to_ := ((apiPage.to_ <|> (apiTo <|> some reqTo))).getD reqTo
             recordings := allRecs ++ pageRecs apiPage }, loops + 1)
  | fuel + 1, loops, allRecs, apiFrom, apiTo =>
    match pages loops with
    | .error e => .error e
    | .ok apiPage =>
      let allRecs' := allRecs ++ pageRecs apiPage
      let apiFrom' := apiFrom <|> (apiPage.from_ <|> some reqFrom)
      let apiTo' := apiPage.to_ <|> (apiTo <|> some reqTo)
      let nextToken := apiPage.next_page_token
      if jsTruthyTok nextToken && decide (loops + 1 < MAX_PHONE_PAGES) then
        phoneLoop pages reqFrom reqTo fuel (loops + 1) allRecs' apiFrom' apiTo'
      else
        .ok ({ from_ := apiFrom'.getD reqFrom
               to_ := apiTo'.getD reqTo
               recordings := allRecs' }, loops + 1)

/-- `fetchAllPhoneRecordings`: walk the paginated phone endpoint from the
first page (no cursor), returning `{from, to, recordings}` together with
the number of page requests issued. -/
def fetchAllPhoneRecordings {ε : Type} (pages : Nat → Except ε ApiResponse)
    (reqFrom reqTo : String) : Except ε (FetchResult × Nat) :=
  phoneLoop pages reqFrom reqTo MAX_PHONE_PAGES 0 [] none none

/-- `mm.hostEmail || mm.host_email || mm.owner_email || ""`. -/
def hostEmailOf (m : Meeting) : String :=
  jsOr m.hostEmail (jsOr m.host_email (jsOr m.owner_email ""))

/-- `mm.hostName || mm.owner_name || hostEmail || mm.topic || "Unknown"`. -/
def hostNameOf (m : Meeting) : String :=
  jsOr m.hostName (jsOr m.owner_name
    (jsOrStr (hostEmailOf m) (jsOr m.topic "Unknown")))

/-- The valid embedded start instants of a file list: for each file,
`if (f.recording_start)` (truthy string) parse it and keep it only when
the resulting date is valid (`!isNaN(d.getTime())`). -/
def validStarts (dops : DateOps) (files : List RecordingFile) : List Int :=
  files.filterMap (fun f =>
    match f.recording_start with
    | some s => if s = "" then none else dops.parse s
    | none => none)

/-- `starts.sort((a, b) => a.getTime() - b.getTime()); firstStartIso =
starts[0].toISOString()` when `starts` is nonempty. -/
def firstStartIsoOf (dops : DateOps) (files : List RecordingFile) :
    Option String :=
  let starts := validStarts dops files
  if starts.isEmpty then none
  else some (dops.toISO ((starts.mergeSort (fun a b => decide (a ≤ b))).headD 0))

/-- The per-file contribution to the size aggregate:
`typeof f.file_size === "number" && !isNaN(f.file_size) ? f.file_size : 0`. -/
def sizeGuard (v : JsSize) : Rat :=
  match v with
  | .num q => q
  | _ => 0

/-- `files.reduce((acc, f) => acc + sizeGuard(f.file_size), 0)`. -/
def totalSizeBytesOf (files : List RecordingFile) : Rat :=
  files.foldl (fun acc f => acc + sizeGuard f.file_size) 0

/-- `totalSizeBytes || undefined`: `0` (and `NaN`, unrepresentable here)
is falsy, every other number passes through. -/
def jsOrNum (q : Rat) : Option Rat :=
  if q = 0 then none else some q

/-- `Array.from(new Set(xs))`: deduplicate keeping first-seen order. -/
def jsSetDedup (xs : List String) : List String :=
  xs.foldl (fun acc s => if s ∈ acc then acc else acc ++ [s]) []

/-- `Array.from(new Set(files.map(f => f.file_type || "").filter(...)))`. -/
def fileTypesOf (files : List RecordingFile) : List String :=
  jsSetDedup ((files.map (fun f => jsOr f.file_type "")).filter
    (fun s => !(s = "")))

/-- The canonical record built for one meeting session (the object literal
pushed by the `for (const m of api.meetings ?? [])` loop). -/
def normalizeMeeting (dops : DateOps) (m : Meeting) : Recording :=
  let hostEmail := hostEmailOf m
  let hostName := hostNameOf m
  let files := m.recording_files.getD []
  let firstStartIso := firstStartIsoOf dops files
  let totalSizeBytes := totalSizeBytesOf files
  { id := jsOr m.uuid (jsNumString m.id)
    caller_number := ""
    callee_number := ""
    date_time := jsOrOpt firstStartIso m.start_time
    end_time := none
    duration := m.duration.getD 0
    recording_type := "Meeting"
    download_url := none
    caller_name := m.topic
    callee_name := some (jsOrStr hostEmail hostName)
    owner := some { type := "user", id := m.host_id
                    name := jsOrStr hostName (jsOrStr hostEmail "Unknown") }
    site := some { id := "", name := "Meeting" }
    direction := "meeting"
    source := "meetings"
    topic := m.topic
    host_name := some hostName
    host_email := some hostEmail
    meetingId := m.uuid
    file_size := jsOrNum totalSizeBytes
    recording_files := some files
    files_count := some files.length
    files_types := some (fileTypesOf files)
    autoDelete := m.autoDelete <|> m.auto_delete
    autoDeleteDate := m.autoDeleteDate <|> m.auto_delete_date }

/-- `fetchAllMeetingRecordings`: one request to the aggregated meeting
endpoint, then per-session normalization in upstream order. -/
def fetchAllMeetingRecordings {ε : Type} (dops : DateOps)
    (api : Except ε MeetingApiResponse) (reqFrom reqTo : String) :
    Except ε FetchResult :=
  match api with
  | .error e => .error e
  | .ok api =>
    .ok { from_ := api.from_.getD reqFrom
          to_ := api.to_.getD reqTo
          recordings := (api.meetings.getD []).map (normalizeMeeting dops) }

/-- A thrown JavaScript error as the catch block sees it: an optional
`message` property and the `String(e)` rendering. -/
structure JsError where
  message : Option String
  asString : String
deriving DecidableEq

/-- `e?.message || String(e)`. -/
def errMsg (e : JsError) : String :=
  jsOr e.message e.asString

/-- The hook's `data` state (`ApiResponse` envelope set by `setData`). -/
structure Envelope where
  from_ : String
  to_ : String
  total_records : Nat
  next_page_token : Option String
  recordings : List Recording
deriving DecidableEq

/-- The orchestrator's React state triple. -/
structure HookState where
  data : Option Envelope
  loading : Bool
  error : Option String
deriving DecidableEq

/-- `fetchRecordings`: the orchestrator state machine.  The dispatched
paths are passed as their outcomes (`Except JsError FetchResult`), demo
generation as a plain list; the function maps the pre-invocation state to
the state after the `try`/`catch`/`finally` settles. -/
def fetchRecordings (demoMode : Bool) (source : String)
    (reqFrom reqTo : String) (demoRecs : List Recording)
    (phonePath meetingPath : Except JsError FetchResult)
    (st : HookState) : HookState :=
  let st := { st with loading := true }
  let st := { st with error := none }
  let st :=
    if demoMode then
      { st with data := some { from_ := reqFrom, to_ := reqTo
                               total_records := demoRecs.length
                               next_page_token := none
                               recordings := demoRecs } }
    else
      match (if source = "phone" then phonePath else meetingPath) with
      | .ok r =>
        { st with data := some { from_ := r.from_, to_ := r.to_
                                 total_records := r.recordings.length
                                 next_page_token := none
                                 recordings := r.recordings } }
      | .error e => { st with error := some (errMsg e) }
  { st with loading := false }

/-! ## Walk characterizations of the phone pagination loop -/

/-- The loop's accumulator after consuming pages `loops .. loops+n-1`. -/
def walkRecs (p : Nat → ApiResponse) : Nat → Nat → List Recording → List Recording
  | _, 0, acc => acc
  | loops, n + 1, acc => walkRecs p (loops + 1) n (acc ++ pageRecs (p loops))

/-- The loop's `apiFrom` variable after consuming pages `loops .. loops+n-1`. -/
def walkFrom (p : Nat → ApiResponse) (f : String) :
    Nat → Nat → Option String → Option String
  | _, 0, aF => aF
  | loops, n + 1, aF =>
    walkFrom p f (loops + 1) n (aF <|> ((p loops).from_ <|> some f))

/-- The loop's `apiTo` variable after consuming pages `loops .. loops+n-1`. -/
def walkTo (p : Nat → ApiResponse) (t : String) :
    Nat → Nat → Option String → Option String
  | _, 0, aT => aT
  | loops, n + 1, aT =>
    walkTo p t (loops + 1) n ((p loops).to_ <|> (aT <|> some t))

/-- The `to` value supplied by the most recent of the pages
`loops .. loops+n-1` that supplies one (later pages win). -/
def lastToWin (p : Nat → ApiResponse) : Nat → Nat → Option String
  | _, 0 => none
  | loops, n + 1 => (lastToWin p (loops + 1) n <|> (p loops).to_)

/-- Specification-side reading of the `to` echo: the `to` supplied by the
most recent of the first `n` pages that supplies one, if any. -/
def lastEchoedTo (p : Nat → ApiResponse) : Nat → Option String
  | 0 => none
  | n + 1 => ((p n).to_ <|> lastEchoedTo p n)


/-! ## Concrete test fixtures used by witnesses and counterexamples -/

/-- A minimal upstream phone record with the given identifier. -/
def mkPhoneRec (i : String) : PhoneRec :=
  { id := i, caller_number := "", callee_number := "", date_time := none
    end_time := none, duration := 0, recording_type := "call"
    download_url := some ("https://x/" ++ i), caller_name := none
    callee_name := none, owner := none, site := none, direction := "inbound" }

/-- A meeting session with every upstream field absent. -/
def mkMeeting : Meeting :=
  { uuid := none, id := none, topic := none, start_time := none
    duration := none, host_id := none, hostEmail := none, hostName := none
    host_email := none, owner_email := none, owner_name := none
    recording_files := none, autoDelete := none, auto_delete := none
    autoDeleteDate := none, auto_delete_date := none }

/-- First phone page: echoes `from = "F1"`, `to = "T1"`, supplies a cursor. -/
def cpage0 : ApiResponse :=
  { from_ := some "F1", to_ := some "T1", next_page_token := some "tok"
    recordings := some [] }

/-- Second phone page: echoes `from = "F2"`, `to = "T2"`, no cursor. -/
def cpage1 : ApiResponse :=
  { from_ := some "F2", to_ := some "T2", next_page_token := none
    recordings := some [] }

/-- A two-page walk: page 0 then page 1. -/
def cpages : Nat → Except String ApiResponse :=
  fun i => if i = 0 then .ok cpage0 else .ok cpage1

/-- The pure page sequence underlying `cpages`. -/
def cp : Nat → ApiResponse :=
  fun i => if i = 0 then cpage0 else cpage1

/-- A page that always supplies a (nonempty) cursor. -/
def cpageInf : ApiResponse :=
  { from_ := none, to_ := none, next_page_token := some "more"
    recordings := some [mkPhoneRec "r"] }

/-- An upstream that keeps supplying cursors forever. -/
def cpagesInf : Nat → Except String ApiResponse :=
  fun _ => .ok cpageInf

/-- The pure page sequence underlying `cpagesInf`. -/
def cpInf : Nat → ApiResponse :=
  fun _ => cpageInf

/-- Three pages carrying records `[a,b]`, `[c]`, `[d,e]` (the spec's
accumulation-order example). -/
def c3p : Nat → ApiResponse :=
  fun i =>
    if i = 0 then
      { from_ := none, to_ := none, next_page_token := some "t1"
        recordings := some [mkPhoneRec "a", mkPhoneRec "b"] }
    else if i = 1 then
      { from_ := none, to_ := none, next_page_token := some "t2"
        recordings := some [mkPhoneRec "c"] }
    else
      { from_ := none, to_ := none, next_page_token := none
        recordings := some [mkPhoneRec "d", mkPhoneRec "e"] }

/-- The three-page walk as an upstream without failures. -/
def c3pages : Nat → Except String ApiResponse :=
  fun i => .ok (c3p i)

/-- An upstream whose second page request fails (page 2 of 3). -/
def c4pages : Nat → Except String ApiResponse :=
  fun i => if i = 0 then .ok cpage0 else .error "HTTP 500: upstream failed"

/-- A concrete date library for witnesses: two known timestamps parse,
everything else is an invalid date. -/
def testDateOps : DateOps :=
  { parse := fun s =>
      if s = "2025-11-05T09:00Z" then some 900
      else if s = "2025-11-05T10:00Z" then some 1000
      else none
    toISO := fun ts =>
      if ts = 900 then "2025-11-05T09:00:00.000Z"
      else "2025-11-05T10:00:00.000Z" }

/-- The spec's earliest-start example session: embedded starts
`[10:00Z, 09:00Z, invalid]` plus a session-level start time. -/
def m5 : Meeting :=
  { mkMeeting with
    uuid := some "u5"
    start_time := some "2025-11-04T00:00:00Z"
    recording_files := some
      [ { recording_start := some "2025-11-05T10:00Z", file_size := .undef
          file_type := none }
      , { recording_start := some "2025-11-05T09:00Z", file_size := .undef
          file_type := none }
      , { recording_start := some "invalid", file_size := .undef
          file_type := none } ] }

/-- The spec's size-aggregation example: sizes `[100, NaN, "x", 50]`. -/
def sizeExampleFiles : List RecordingFile :=
  [ { recording_start := none, file_size := .num 100, file_type := none }
  , { recording_start := none, file_size := .nan, file_type := none }
  , { recording_start := none, file_size := .str "x", file_type := none }
  , { recording_start := none, file_size := .num 50, file_type := none } ]

/-- The spec's host-fallback example: only `owner_email` is set. -/
def m7 : Meeting :=
  { mkMeeting with owner_email := some "a@x.com" }

/-- A session whose file sizes are `[5, -5]`: it contains a positive
numeric size yet its aggregate is `0`. -/
def mNeg : Meeting :=
  { mkMeeting with
    uuid := some "uneg"
    recording_files := some
      [ { recording_start := none, file_size := .num 5, file_type := none }
      , { recording_start := none, file_size := .num (-5), file_type := none } ] }

/-- A session with sizes `[100, "x", 50]`, all numeric ones nonnegative. -/
def m10 : Meeting :=
  { mkMeeting with
    uuid := some "u10"
    recording_files := some
      [ { recording_start := none, file_size := .num 100, file_type := none }
      , { recording_start := none, file_size := .str "x", file_type := none }
      , { recording_start := none, file_size := .num 50, file_type := none } ] }

/-- A previously successful result envelope sitting in the hook state. -/
def envPrev : Envelope :=
  { from_ := "2025-01-01", to_ := "2025-01-31", total_records := 1
    next_page_token := none, recordings := [tagPhone (mkPhoneRec "old")] }

/-- Hook state holding stale data from an earlier successful fetch. -/
def st8 : HookState :=
  { data := some envPrev, loading := false, error := none }

/-- A thrown error with a nonempty `message` property. -/
def err8 : JsError :=
  { message := some "HTTP 500: boom", asString := "Error: HTTP 500: boom" }

/-- Specification-side reading of an ordered fallback chain: the first
candidate that is present and non-empty, else the default. -/
def firstTruthy (cs : List (Option String)) (dflt : String) : String :=
  match cs with
  | [] => dflt
  | c :: rest =>
    match c with
    | some s => if s = "" then firstTruthy rest dflt else s
    | none => firstTruthy rest dflt

/-! ## Helper lemmas -/

theorem optOr_assoc (a b c : Option String) :
    ((a <|> b) <|> c) = (a <|> (b <|> c)) := by
  cases a <;> rfl

theorem walkFrom_some (p : Nat → ApiResponse) (f x : String) :
    ∀ n loops, walkFrom p f loops n (some x) = some x := by
  intro n
  induction n with
  | zero => intro loops; rfl
  | succ m ih =>
    intro loops
    show walkFrom p f (loops + 1) m ((some x) <|> _) = some x
    rw [Option.some_orElse]
    exact ih (loops + 1)

theorem walkFrom_first (p : Nat → ApiResponse) (f : String) (m loops : Nat) :
    walkFrom p f loops (m + 1) none = some (((p loops).from_).getD f) := by
  show walkFrom p f (loops + 1) m ((none : Option String) <|> _) = _
  rw [Option.none_orElse]
  cases h : (p loops).from_ with
  | none => rw [Option.none_orElse]; exact walkFrom_some p f f m (loops + 1)
  | some v => rw [Option.some_orElse]; exact walkFrom_some p f v m (loops + 1)

theorem walkRecs_eq (p : Nat → ApiResponse) :
    ∀ n loops acc, walkRecs p loops n acc =
      acc ++ (List.range n).flatMap (fun i => pageRecs (p (loops + i))) := by
  intro n
  induction n with
  | zero => intro loops acc; simp [walkRecs]
  | succ m ih =>
    intro loops acc
    show walkRecs p (loops + 1) m (acc ++ pageRecs (p loops)) = _
    rw [ih (loops + 1) (acc ++ pageRecs (p loops))]
    rw [List.range_succ_eq_map, List.flatMap_cons, List.flatMap_map]
    simp only [Nat.add_zero, List.append_assoc]
    congr 2
    have hsh : ∀ i : Nat, loops + 1 + i = loops + Nat.succ i := fun i => by omega
    simp only [hsh]

theorem walkTo_eq (p : Nat → ApiResponse) (t : String) :
    ∀ n loops aT, 0 < n →
      walkTo p t loops n aT = (lastToWin p loops n <|> (aT <|> some t)) := by
  intro n
  induction n with
  | zero => intro loops aT h; omega
  | succ m ih =>
    intro loops aT _
    show walkTo p t (loops + 1) m ((p loops).to_ <|> (aT <|> some t)) = _
    cases m with
    | zero =>
      show ((p loops).to_ <|> (aT <|> some t)) =
        (((none : Option String) <|> (p loops).to_) <|> (aT <|> some t))
      cases (p loops).to_ <;> cases aT <;> rfl
    | succ k =>
      rw [ih (loops + 1) ((p loops).to_ <|> (aT <|> some t)) (Nat.succ_pos k)]
      show (lastToWin p (loops + 1) (k + 1) <|> ((((p loops).to_ <|> (aT <|> some t))) <|> some t)) =
        ((lastToWin p (loops + 1) (k + 1) <|> (p loops).to_) <|> (aT <|> some t))
      generalize lastToWin p (loops + 1) (k + 1) = A
      cases A <;> cases (p loops).to_ <;> cases aT <;> rfl

theorem lastToWin_back (p : Nat → ApiResponse) :
    ∀ m loops, lastToWin p loops (m + 1) = ((p (loops + m)).to_ <|> lastToWin p loops m) := by
  intro m
  induction m with
  | zero =>
    intro loops
    show ((none : Option String) <|> (p loops).to_) = ((p (loops + 0)).to_ <|> none)
    rw [Option.none_orElse, Option.orElse_none]
    rfl
  | succ k ih =>
    intro loops
    show (lastToWin p (loops + 1) (k + 1) <|> (p loops).to_) =
      ((p (loops + (k + 1))).to_ <|> (lastToWin p (loops + 1) k <|> (p loops).to_))
    rw [ih (loops + 1)]
    rw [optOr_assoc]
    rw [show loops + 1 + k = loops + (k + 1) from by omega]

theorem lastToWin_zero (p : Nat → ApiResponse) :
    ∀ n, lastToWin p 0 n = lastEchoedTo p n := by
  intro n
  induction n with
  | zero => rfl
  | succ m ih =>
    rw [lastToWin_back]
    show _ = ((p m).to_ <|> lastEchoedTo p m)
    rw [ih, Nat.zero_add]

theorem phoneLoop_walk {ε : Type} (pages : Nat → Except ε ApiResponse)
    (p : Nat → ApiResponse) (f t : String) :
    ∀ n fuel loops acc aF aT, 0 < n → n ≤ fuel →
      loops + n ≤ MAX_PHONE_PAGES →
      (∀ i, i < n → pages (loops + i) = .ok (p (loops + i))) →
      (∀ i, i + 1 < n → jsTruthyTok (p (loops + i)).next_page_token = true) →
      (jsTruthyTok (p (loops + (n - 1))).next_page_token = false ∨
        loops + n = MAX_PHONE_PAGES) →
      phoneLoop pages f t fuel loops acc aF aT =
        .ok ({ from_ := (walkFrom p f loops n aF).getD f
               to_ := (walkTo p t loops n aT).getD t
               recordings := walkRecs p loops n acc }, loops + n) := by
  intro n
  induction n with
  | zero => intro fuel loops acc aF aT h0 _ _ _ _ _; omega
  | succ m ih =>
    intro fuel loops acc aF aT h0 hfuel hmax hok htok hstop
    have hp : pages loops = .ok (p loops) := by
      have h := hok 0 (Nat.succ_pos m); simpa using h
    cases m with
    | zero =>
      have hc : (jsTruthyTok (p loops).next_page_token &&
          decide (loops + 1 < MAX_PHONE_PAGES)) = false := by
        rcases hstop with hs | hs
        · simp only [Nat.add_sub_cancel, Nat.add_zero] at hs
          simp [hs]
        · simp [hs]
      cases fuel with
      | zero => simp only [phoneLoop, hp]; rfl
      | succ fu => simp only [phoneLoop, hp, hc]; rfl
    | succ k =>
      cases fuel with
      | zero => omega
      | succ fu =>
        have htok0 : jsTruthyTok (p loops).next_page_token = true := by
          have h := htok 0 (by omega); simpa using h
        have hlt : loops + 1 < MAX_PHONE_PAGES := by omega
        have hc : (jsTruthyTok (p loops).next_page_token &&
            decide (loops + 1 < MAX_PHONE_PAGES)) = true := by
          simp [htok0, hlt]
        have hok' : ∀ i, i < k + 1 →
            pages (loops + 1 + i) = .ok (p (loops + 1 + i)) := by
          intro i hi
          have h := hok (i + 1) (by omega)
          rwa [show loops + (i + 1) = loops + 1 + i from by omega] at h
        have htok' : ∀ i, i + 1 < k + 1 →
            jsTruthyTok (p (loops + 1 + i)).next_page_token = true := by
          intro i hi
          have h := htok (i + 1) (by omega)
          rwa [show loops + (i + 1) = loops + 1 + i from by omega] at h
        have hstop' : jsTruthyTok
              (p (loops + 1 + (k + 1 - 1))).next_page_token = false ∨
            loops + 1 + (k + 1) = MAX_PHONE_PAGES := by
          rcases hstop with hs | hs
          · left
            rwa [show loops + (k + 1 + 1 - 1) = loops + 1 + (k + 1 - 1) from by omega] at hs
          · right; omega
        have hrec := ih fu (loops + 1) (acc ++ pageRecs (p loops))
          (aF <|> ((p loops).from_ <|> some f))
          ((p loops).to_ <|> (aT <|> some t))
          (Nat.succ_pos k) (by omega) (by omega) hok' htok' hstop'
        simp only [phoneLoop, hp, hc, if_true]
        rw [hrec]
        rw [show loops + 1 + (k + 1) = loops + (k + 1 + 1) from by omega]
        rfl

theorem optOr_someD (x : Option String) (t : String) :
    ((x <|> some t)).getD t = x.getD t := by
  cases x <;> rfl

theorem phoneLoop_error {ε : Type} (pages : Nat → Except ε ApiResponse)
    (p : Nat → ApiResponse) (e : ε) (f t : String) :
    ∀ j fuel loops acc aF aT, j ≤ fuel → loops + j < MAX_PHONE_PAGES →
      (∀ i, i < j → pages (loops + i) = .ok (p (loops + i))) →
      (∀ i, i < j → jsTruthyTok (p (loops + i)).next_page_token = true) →
      pages (loops + j) = .error e →
      phoneLoop pages f t fuel loops acc aF aT = .error e := by
  intro j
  induction j with
  | zero =>
    intro fuel loops acc aF aT _ _ _ _ herr
    have herr' : pages loops = .error e := by simpa using herr
    cases fuel with
    | zero => simp only [phoneLoop, herr']
    | succ fu => simp only [phoneLoop, herr']
  | succ k ih =>
    intro fuel loops acc aF aT hfuel hmax hok htok herr
    have hp : pages loops = .ok (p loops) := by
      have h := hok 0 (Nat.succ_pos k); simpa using h
    have htok0 : jsTruthyTok (p loops).next_page_token = true := by
      have h := htok 0 (Nat.succ_pos k); simpa using h
    have hlt : loops + 1 < MAX_PHONE_PAGES := by omega
    have hc : (jsTruthyTok (p loops).next_page_token &&
        decide (loops + 1 < MAX_PHONE_PAGES)) = true := by
      simp [htok0, hlt]
    cases fuel with
    | zero => omega
    | succ fu =>
      simp only [phoneLoop, hp, hc, if_true]
      apply ih fu (loops + 1) _ _ _ (by omega) (by omega)
      · intro i hi
        have h := hok (i + 1) (by omega)
        rwa [show loops + (i + 1) = loops + 1 + i from by omega] at h
      · intro i hi
        have h := htok (i + 1) (by omega)
        rwa [show loops + (i + 1) = loops + 1 + i from by omega] at h
      · rwa [show loops + (k + 1) = loops + 1 + k from by omega] at herr

theorem fetchAll_walk {ε : Type} (pages : Nat → Except ε ApiResponse)
    (p : Nat → ApiResponse) (f t : String) (n : Nat) (h0 : 0 < n)
    (hn : n ≤ MAX_PHONE_PAGES)
    (hok : ∀ i, i < n → pages i = .ok (p i))
    (htok : ∀ i, i + 1 < n → jsTruthyTok (p i).next_page_token = true)
    (hstop : jsTruthyTok (p (n - 1)).next_page_token = false ∨
      n = MAX_PHONE_PAGES) :
    fetchAllPhoneRecordings pages f t =
      .ok ({ from_ := ((p 0).from_).getD f
             to_ := (lastEchoedTo p n).getD t
             recordings := (List.range n).flatMap (fun i => pageRecs (p i)) },
        n) := by
  have h := phoneLoop_walk pages p f t n MAX_PHONE_PAGES 0 [] none none h0 hn
    (by omega)
    (by intro i hi; rw [Nat.zero_add]; exact hok i hi)
    (by intro i hi; rw [Nat.zero_add]; exact htok i hi)
    (by simp only [Nat.zero_add]; exact hstop)
  rw [show fetchAllPhoneRecordings pages f t =
    phoneLoop pages f t MAX_PHONE_PAGES 0 [] none none from rfl, h]
  obtain ⟨m, rfl⟩ : ∃ m, n = m + 1 := ⟨n - 1, by omega⟩
  rw [walkFrom_first p f m 0]
  rw [walkTo_eq p t (m + 1) 0 none (Nat.succ_pos m)]
  rw [Option.none_orElse, lastToWin_zero, optOr_someD]
  rw [walkRecs_eq p (m + 1) 0 []]
  simp only [Nat.zero_add, List.nil_append, Option.getD_some]

/-! ## Claim theorems: Source A Paginator -/

/-- C1 (counterexample): the first successful page (`cpage0`) echoes
`to = "T1"`, yet the pagination result carries `to = "T2"` taken from the
second page — a later page's response does change the echoed `to`, so the
claim that both `from` and `to` are frozen at the first successful page is
false on the code (`apiTo = apiPage.to ?? apiTo ?? to` re-reads every
page). -/
theorem phone_to_overwritten_cex :
    cp 0 = cpage0 ∧ cpage0.to_ = some "T1" ∧
    fetchAllPhoneRecordings cpages "f" "t" =
      .ok ({ from_ := "F1", to_ := "T2", recordings := [] }, 2) ∧
    ("T2" : String) ≠ "T1" :=
  ⟨rfl, rfl, rfl, by decide⟩

/-- C1 (amended): in every successful pagination walk over pages
`p 0 .. p (n-1)`, the returned `from` is taken from the first successful
page's response (falling back to the request value when absent) and later
pages never change it, while the returned `to` is taken from the most
recent page response that supplies one (falling back to the request value
when no page does). -/
theorem phone_range_echo_amended {ε : Type}
    (pages : Nat → Except ε ApiResponse) (p : Nat → ApiResponse)
    (f t : String) (n : Nat) (h0 : 0 < n) (hn : n ≤ MAX_PHONE_PAGES)
    (hok : ∀ i, i < n → pages i = .ok (p i))
    (htok : ∀ i, i + 1 < n → jsTruthyTok (p i).next_page_token = true)
    (hstop : jsTruthyTok (p (n - 1)).next_page_token = false ∨
      n = MAX_PHONE_PAGES) :
    ∃ res, fetchAllPhoneRecordings pages f t = .ok (res, n) ∧
      res.from_ = ((p 0).from_).getD f ∧
      res.to_ = (lastEchoedTo p n).getD t :=
  ⟨_, fetchAll_walk pages p f t n h0 hn hok htok hstop, rfl, rfl⟩

/-- C1 (witness): the amended claim evaluated on the concrete two-page
walk `cpages`. -/
theorem phone_range_echo_amended_witness :
    ∃ res, fetchAllPhoneRecordings cpages "f" "t" = .ok (res, 2) ∧
      res.from_ = ((cp 0).from_).getD "f" ∧
      res.to_ = (lastEchoedTo cp 2).getD "t" :=
  phone_range_echo_amended cpages cp "f" "t" 2 (by decide) (by decide)
    (by intro i hi; interval_cases i <;> rfl)
    (by intro i hi; have h : i = 0 := (by omega); subst h; rfl)
    (Or.inl rfl)

/-- C2: if every upstream response supplies a (truthy) next-page cursor —
even an infinite sequence of them — the paginator issues exactly
`MAX_PHONE_PAGES = 20` page requests and then terminates, returning the
records accumulated from those 20 pages. -/
theorem phone_pagination_cap {ε : Type}
    (pages : Nat → Except ε ApiResponse) (p : Nat → ApiResponse)
    (f t : String)
    (hok : ∀ i, pages i = .ok (p i))
    (htok : ∀ i, jsTruthyTok (p i).next_page_token = true) :
    ∃ res, fetchAllPhoneRecordings pages f t = .ok (res, 20) ∧
      res.recordings = (List.range 20).flatMap (fun i => pageRecs (p i)) :=
  ⟨_, fetchAll_walk pages p f t 20 (by decide) (by decide)
    (fun i _ => hok i) (fun i _ => htok i) (Or.inr rfl), rfl⟩

/-- C2 (witness): the cap evaluated on an upstream that supplies a cursor
forever. -/
theorem phone_pagination_cap_witness :
    ∃ res, fetchAllPhoneRecordings cpagesInf "f" "t" = .ok (res, 20) ∧
      res.recordings = (List.range 20).flatMap (fun i => pageRecs (cpInf i)) :=
  phone_pagination_cap cpagesInf cpInf "f" "t" (fun _ => rfl) (fun _ => rfl)

/-- C3: in every successful pagination walk over pages `p 0 .. p (n-1)`,
the returned `recordings` list is exactly the concatenation of the pages'
record lists in page order, each record mapped through the
`source = "phone"` tagging, and hence every returned record carries
`source = "phone"`. -/
theorem phone_accumulation_order {ε : Type}
    (pages : Nat → Except ε ApiResponse) (p : Nat → ApiResponse)
    (f t : String) (n : Nat) (h0 : 0 < n) (hn : n ≤ MAX_PHONE_PAGES)
    (hok : ∀ i, i < n → pages i = .ok (p i))
    (htok : ∀ i, i + 1 < n → jsTruthyTok (p i).next_page_token = true)
    (hstop : jsTruthyTok (p (n - 1)).next_page_token = false ∨
      n = MAX_PHONE_PAGES) :
    ∃ res, fetchAllPhoneRecordings pages f t = .ok (res, n) ∧
      res.recordings =
        (List.range n).flatMap
          (fun i => ((p i).recordings.getD []).map tagPhone) ∧
      ∀ r ∈ res.recordings, r.source = "phone" := by
  refine ⟨_, fetchAll_walk pages p f t n h0 hn hok htok hstop, rfl, ?_⟩
  intro r hr
  dsimp only at hr
  simp only [List.mem_flatMap] at hr
  obtain ⟨i, _, hr⟩ := hr
  simp only [pageRecs, List.mem_map] at hr
  obtain ⟨x, _, rfl⟩ := hr
  rfl

/-- C3 (witness): the spec's example — pages `[a,b]`, `[c]`, `[d,e]`
flatten to `[a,b,c,d,e]` in order, each tagged `source = "phone"`. -/
theorem phone_accumulation_order_witness :
    (∃ res, fetchAllPhoneRecordings c3pages "f" "t" = .ok (res, 3) ∧
      res.recordings =
        (List.range 3).flatMap
          (fun i => ((c3p i).recordings.getD []).map tagPhone) ∧
      ∀ r ∈ res.recordings, r.source = "phone") ∧
    (List.range 3).flatMap
        (fun i => ((c3p i).recordings.getD []).map tagPhone) =
      [tagPhone (mkPhoneRec "a"), tagPhone (mkPhoneRec "b"),
       tagPhone (mkPhoneRec "c"), tagPhone (mkPhoneRec "d"),
       tagPhone (mkPhoneRec "e")] :=
  ⟨phone_accumulation_order c3pages c3p "f" "t" 3 (by decide) (by decide)
      (fun i _ => rfl)
      (by intro i hi
          have h : i = 0 ∨ i = 1 := (by omega)
          rcases h with h | h <;> subst h <;> rfl)
      (Or.inl rfl),
   rfl⟩

/-- C4: if the pages before index `j` succeed with cursors and the request
for page `j` fails, the paginator's call rejects with that error — the
`Except.error` result carries no records, so the records accumulated from
the earlier successful pages are discarded, never surfaced. -/
theorem phone_atomic_failure {ε : Type}
    (pages : Nat → Except ε ApiResponse) (p : Nat → ApiResponse) (e : ε)
    (f t : String) (j : Nat) (hj : j < MAX_PHONE_PAGES)
    (hok : ∀ i, i < j → pages i = .ok (p i))
    (htok : ∀ i, i < j → jsTruthyTok (p i).next_page_token = true)
    (herr : pages j = .error e) :
    fetchAllPhoneRecordings pages f t = .error e := by
  apply phoneLoop_error pages p e f t j MAX_PHONE_PAGES 0 [] none none
    (by omega) (by omega)
  · intro i hi; rw [Nat.zero_add]; exact hok i hi
  · intro i hi; rw [Nat.zero_add]; exact htok i hi
  · rw [Nat.zero_add]; exact herr

/-- C4 (witness): page 2 of a walk fails; the whole call rejects. -/
theorem phone_atomic_failure_witness :
    fetchAllPhoneRecordings c4pages "f" "t" =
      .error "HTTP 500: upstream failed" :=
  phone_atomic_failure c4pages cp "HTTP 500: upstream failed" "f" "t" 1
    (by decide)
    (by intro i hi; have h : i = 0 := (by omega); subst h; rfl)
    (by intro i hi; have h : i = 0 := (by omega); subst h; rfl)
    rfl

/-! ## Claim theorems: Source B Normalizer -/

theorem mergeSort_headD_min (l : List Int) (hne : l ≠ []) :
    ((l.mergeSort (fun a b => decide (a ≤ b))).headD 0) ∈ l ∧
    ∀ u ∈ l, ((l.mergeSort (fun a b => decide (a ≤ b))).headD 0) ≤ u := by
  have hperm := List.mergeSort_perm l (fun a b => decide (a ≤ b))
  have htrans : ∀ (a b c : Int), decide (a ≤ b) = true →
      decide (b ≤ c) = true → decide (a ≤ c) = true := by
    intro a b c
    simp only [decide_eq_true_eq]
    omega
  have htotal : ∀ (a b : Int), (decide (a ≤ b) || decide (b ≤ a)) = true := by
    intro a b
    simp only [Bool.or_eq_true, decide_eq_true_eq]
    omega
  have hsorted := List.sorted_mergeSort htrans htotal l
  cases hm : l.mergeSort (fun a b => decide (a ≤ b)) with
  | nil =>
    exfalso
    apply hne
    rw [hm] at hperm
    exact hperm.symm.eq_nil
  | cons h tl =>
    rw [hm] at hperm hsorted
    rw [List.pairwise_cons] at hsorted
    constructor
    · exact hperm.mem_iff.mp (List.mem_cons_self h tl)
    · intro u hu
      have hu' : u ∈ h :: tl := hperm.mem_iff.mpr hu
      rcases List.mem_cons.mp hu' with rfl | hmem
      · simp
      · have := hsorted.1 u hmem
        simpa using this

/-- C5: for every normalized session, when at least one embedded file start
parses to a valid date the canonical `date_time` is the ISO rendering of
the earliest such instant (invalid timestamps excluded), and when no
embedded file carries a valid timestamp it is the session-level start
time.  The hypothesis `hiso` records that the ISO rendering of a valid
date is never the empty string. -/
theorem meeting_earliest_start (dops : DateOps) (m : Meeting)
    (hiso : ∀ ts : Int, dops.toISO ts ≠ "") :
    (validStarts dops (m.recording_files.getD []) ≠ [] →
      ∃ tmin, tmin ∈ validStarts dops (m.recording_files.getD []) ∧
        (∀ u ∈ validStarts dops (m.recording_files.getD []), tmin ≤ u) ∧
        (normalizeMeeting dops m).date_time = some (dops.toISO tmin)) ∧
    (validStarts dops (m.recording_files.getD []) = [] →
      (normalizeMeeting dops m).date_time = m.start_time) := by
  have hdt : (normalizeMeeting dops m).date_time =
      jsOrOpt (firstStartIsoOf dops (m.recording_files.getD []))
        m.start_time := rfl
  constructor
  · intro hne
    obtain ⟨hmem, hmin⟩ :=
      mergeSort_headD_min (validStarts dops (m.recording_files.getD [])) hne
    refine ⟨_, hmem, hmin, ?_⟩
    rw [hdt]
    have hfs : firstStartIsoOf dops (m.recording_files.getD []) =
        some (dops.toISO
          (((validStarts dops (m.recording_files.getD [])).mergeSort
            (fun a b => decide (a ≤ b))).headD 0)) := by
      simp only [firstStartIsoOf]
      rw [if_neg]
      simp only [List.isEmpty_iff]
      exact hne
    rw [hfs]
    simp only [jsOrOpt]
    rw [if_neg (hiso _)]
  · intro hemp
    rw [hdt]
    have hfs : firstStartIsoOf dops (m.recording_files.getD []) = none := by
      simp only [firstStartIsoOf, hemp]
      rfl
    rw [hfs]
    rfl

/-- C5 (witness): the spec's example — embedded starts
`[10:00Z, 09:00Z, invalid]` select the 09:00Z instant, rendered by
`toISO`. -/
theorem meeting_earliest_start_witness :
    validStarts testDateOps (m5.recording_files.getD []) ≠ [] ∧
    ∃ tmin, tmin ∈ validStarts testDateOps (m5.recording_files.getD []) ∧
      (∀ u ∈ validStarts testDateOps (m5.recording_files.getD []), tmin ≤ u) ∧
      (normalizeMeeting testDateOps m5).date_time =
        some (testDateOps.toISO tmin) :=
  ⟨by decide,
   (meeting_earliest_start testDateOps m5
      (by intro ts
          simp only [testDateOps]
          split <;> decide)).1 (by decide)⟩

theorem foldl_add_eq_sum (g : RecordingFile → Rat) :
    ∀ (l : List RecordingFile) (a : Rat),
      l.foldl (fun acc f => acc + g f) a = a + (l.map g).sum := by
  intro l
  induction l with
  | nil => intro a; simp
  | cons x xs ih =>
    intro a
    simp only [List.foldl_cons, List.map_cons, List.sum_cons]
    rw [ih (a + g x), add_assoc]

/-- C6: the aggregated total size equals the sum over embedded files of
their guarded size contributions — non-numeric and `NaN` sizes contribute
zero — and the aggregate lives in `Rat`, where no `NaN` exists (the guard
keeps `NaN` out of the accumulator); the spec's example
`[100, NaN, "x", 50]` aggregates to `150`. -/
theorem meeting_total_size :
    (∀ files : List RecordingFile,
      totalSizeBytesOf files =
        (files.map (fun f => sizeGuard f.file_size)).sum) ∧
    totalSizeBytesOf sizeExampleFiles = 150 := by
  constructor
  · intro files
    unfold totalSizeBytesOf
    rw [foldl_add_eq_sum]
    rw [zero_add]
  · norm_num [totalSizeBytesOf, sizeExampleFiles, sizeGuard]

theorem firstTruthy_cons (c : Option String) (rest : List (Option String))
    (d : String) : firstTruthy (c :: rest) d = jsOr c (firstTruthy rest d) := by
  cases c <;> rfl

theorem jsOr_ne_empty (a : Option String) (b : String) (hb : b ≠ "") :
    jsOr a b ≠ "" := by
  cases a with
  | none => exact hb
  | some s =>
    by_cases h : s = "" <;> simp [jsOr, h]
    assumption

theorem jsOrStr_ne_empty (a b : String) (hb : b ≠ "") :
    jsOrStr a b ≠ "" := by
  by_cases h : a = "" <;> simp [jsOrStr, h]
  assumption

/-- C7: for every normalized session the canonical `host_name` is the
result of the ordered fallback chain camel-case host-name field →
owner-name field → resolved host email → topic → literal `"Unknown"`, and
is therefore never the empty string; and the spec's example session with
only `owner_email = "a@x.com"` yields `host_email = "a@x.com"` and
`host_name = "a@x.com"`. -/
theorem meeting_host_name_chain :
    (∀ (dops : DateOps) (m : Meeting),
      (normalizeMeeting dops m).host_name = some (hostNameOf m) ∧
      hostNameOf m =
        firstTruthy [m.hostName, m.owner_name, some (hostEmailOf m), m.topic]
          "Unknown" ∧
      hostNameOf m ≠ "") ∧
    (normalizeMeeting testDateOps m7).host_email = some "a@x.com" ∧
    (normalizeMeeting testDateOps m7).host_name = some "a@x.com" := by
  refine ⟨?_, rfl, rfl⟩
  intro dops m
  refine ⟨rfl, ?_, ?_⟩
  · rw [firstTruthy_cons, firstTruthy_cons, firstTruthy_cons, firstTruthy_cons]
    rfl
  · unfold hostNameOf
    apply jsOr_ne_empty
    apply jsOr_ne_empty
    apply jsOrStr_ne_empty
    apply jsOr_ne_empty
    decide

/-- C9: every Canonical Record carries exactly the source tag of the path
that built it, and the tag determines the optional fields: phone-tagged
records never populate `topic`, `host_email` or `files_types`, and
meetings-tagged records never populate a direct `download_url`. -/
theorem canonical_source_tag :
    (∀ r : PhoneRec, (tagPhone r).source = "phone" ∧
      (tagPhone r).topic = none ∧ (tagPhone r).host_email = none ∧
      (tagPhone r).files_types = none) ∧
    (∀ (dops : DateOps) (m : Meeting),
      (normalizeMeeting dops m).source = "meetings" ∧
      (normalizeMeeting dops m).download_url = none) :=
  ⟨fun _ => ⟨rfl, rfl, rfl, rfl⟩, fun _ _ => ⟨rfl, rfl⟩⟩

theorem map_sum_pos_iff (g : RecordingFile → Rat) :
    ∀ l : List RecordingFile, (∀ f ∈ l, 0 ≤ g f) →
      (0 < (l.map g).sum ↔ ∃ f ∈ l, 0 < g f) := by
  intro l
  induction l with
  | nil => intro _; simp
  | cons x xs ih =>
    intro hnn
    have hx : 0 ≤ g x := hnn x (List.mem_cons_self x xs)
    have hxs : ∀ f ∈ xs, 0 ≤ g f := fun f hf => hnn f (List.mem_cons_of_mem x hf)
    have hsum : 0 ≤ (xs.map g).sum := by
      apply List.sum_nonneg
      intro y hy
      obtain ⟨f, hf, rfl⟩ := List.mem_map.mp hy
      exact hxs f hf
    simp only [List.map_cons, List.sum_cons, List.mem_cons]
    constructor
    · intro h
      by_cases hx0 : 0 < g x
      · exact ⟨x, Or.inl rfl, hx0⟩
      · have hx0' : g x = 0 := le_antisymm (not_lt.mp hx0) hx
        rw [hx0', zero_add] at h
        obtain ⟨f, hf, hgf⟩ := (ih hxs).mp h
        exact ⟨f, Or.inr hf, hgf⟩
    · rintro ⟨f, hf | hf, hgf⟩
      · subst hf; linarith
      · have := (ih hxs).mpr ⟨f, hf, hgf⟩
        linarith

/-- C10 (counterexample): session `mNeg` embeds the file sizes `[5, -5]`:
at least one embedded file carries a positive numeric size, yet the
aggregate is `0`, so the canonical `file_size` is absent — refuting the
claimed equivalence between a positive `file_size` and the existence of a
positive numeric size. -/
theorem meeting_file_size_pos_cex :
    (∃ f ∈ mNeg.recording_files.getD [], ∃ q : Rat,
      f.file_size = JsSize.num q ∧ 0 < q) ∧
    (normalizeMeeting testDateOps mNeg).file_size = none := by
  constructor
  · refine ⟨⟨none, .num 5, none⟩, ?_, 5, rfl, ?_⟩
    · decide
    · norm_num
  · have hfs : (normalizeMeeting testDateOps mNeg).file_size =
        jsOrNum (totalSizeBytesOf (mNeg.recording_files.getD [])) := rfl
    have htot : totalSizeBytesOf (mNeg.recording_files.getD []) = 0 := by
      norm_num [totalSizeBytesOf, mNeg, mkMeeting, sizeGuard]
    rw [hfs, htot]
    rfl

/-- C10 (amended): the canonical `file_size` is absent exactly when the
aggregated total computes to `0` (in particular for sessions with no
embedded files or only invalid sizes) and equals the aggregate otherwise;
when every file's guarded size contribution is nonnegative — i.e. no
negative numeric sizes occur — `file_size` is a positive number exactly
when at least one embedded file carries a positive numeric size. -/
theorem meeting_file_size_amended (dops : DateOps) (m : Meeting) :
    ((normalizeMeeting dops m).file_size = none ↔
      totalSizeBytesOf (m.recording_files.getD []) = 0) ∧
    (totalSizeBytesOf (m.recording_files.getD []) ≠ 0 →
      (normalizeMeeting dops m).file_size =
        some (totalSizeBytesOf (m.recording_files.getD []))) ∧
    ((∀ f ∈ m.recording_files.getD [], 0 ≤ sizeGuard f.file_size) →
      ((∃ q, (normalizeMeeting dops m).file_size = some q ∧ 0 < q) ↔
        ∃ f ∈ m.recording_files.getD [], ∃ q : Rat,
          f.file_size = JsSize.num q ∧ 0 < q)) := by
  have hfs : (normalizeMeeting dops m).file_size =
      jsOrNum (totalSizeBytesOf (m.recording_files.getD [])) := rfl
  have htot : totalSizeBytesOf (m.recording_files.getD []) =
      ((m.recording_files.getD []).map (fun f => sizeGuard f.file_size)).sum := by
    unfold totalSizeBytesOf
    rw [foldl_add_eq_sum, zero_add]
  refine ⟨?_, ?_, ?_⟩
  · rw [hfs]
    unfold jsOrNum
    split_ifs with h
    · simp [h]
    · simp [h]
  · intro h
    rw [hfs]
    unfold jsOrNum
    rw [if_neg h]
  · intro hnn
    have hpos : 0 < totalSizeBytesOf (m.recording_files.getD []) ↔
        ∃ f ∈ m.recording_files.getD [], 0 < sizeGuard f.file_size := by
      rw [htot]
      exact map_sum_pos_iff _ _ hnn
    constructor
    · rintro ⟨q, hq, hqpos⟩
      rw [hfs] at hq
      unfold jsOrNum at hq
      have hq' : totalSizeBytesOf (m.recording_files.getD []) = q := by
        by_cases h : totalSizeBytesOf (m.recording_files.getD []) = 0
        · rw [if_pos h] at hq; cases hq
        · rw [if_neg h] at hq; exact Option.some.inj hq
      have h0 : 0 < totalSizeBytesOf (m.recording_files.getD []) := by
        rw [hq']; exact hqpos
      obtain ⟨f, hf, hgf⟩ := hpos.mp h0
      cases hsz : f.file_size with
      | num q2 =>
        rw [hsz] at hgf
        exact ⟨f, hf, q2, hsz, hgf⟩
      | nan => rw [hsz] at hgf; simp [sizeGuard] at hgf
      | str s => rw [hsz] at hgf; simp [sizeGuard] at hgf
      | undef => rw [hsz] at hgf; simp [sizeGuard] at hgf
    · rintro ⟨f, hf, q, hq, hqpos⟩
      have h0 : 0 < totalSizeBytesOf (m.recording_files.getD []) := by
        apply hpos.mpr
        refine ⟨f, hf, ?_⟩
        rw [hq]
        exact hqpos
      refine ⟨totalSizeBytesOf (m.recording_files.getD []), ?_, h0⟩
      rw [hfs]
      unfold jsOrNum
      rw [if_neg (by linarith)]

/-- C10 (witness): the amended equivalence evaluated on session `m10`
(sizes `[100, "x", 50]`, all numeric sizes nonnegative). -/
theorem meeting_file_size_amended_witness :
    ((normalizeMeeting testDateOps m10).file_size =
      some (totalSizeBytesOf (m10.recording_files.getD []))) ∧
    ((∃ q, (normalizeMeeting testDateOps m10).file_size = some q ∧ 0 < q) ↔
      ∃ f ∈ m10.recording_files.getD [], ∃ q : Rat,
        f.file_size = JsSize.num q ∧ 0 < q) :=
  ⟨(meeting_file_size_amended testDateOps m10).2.1
      (by norm_num [totalSizeBytesOf, m10, mkMeeting, sizeGuard]),
   (meeting_file_size_amended testDateOps m10).2.2 (by decide)⟩

/-! ## Claim theorems: Fetch Orchestrator -/

/-- C8: whenever the dispatched live path rejects, the orchestrator leaves
the previously stored result data unchanged, sets `loading` to `false`,
and stores the exception's message as the error state — the message
property itself when it is a nonempty string, its stringification when
there is no message property.  Stale result data is never cleared on
error. -/
theorem orchestrator_error_isolation (source reqFrom reqTo : String)
    (demoRecs : List Recording)
    (phonePath meetingPath : Except JsError FetchResult)
    (st : HookState) (e : JsError)
    (hdisp : (if source = "phone" then phonePath else meetingPath) =
      .error e) :
    (fetchRecordings false source reqFrom reqTo demoRecs phonePath
        meetingPath st).data = st.data ∧
    (fetchRecordings false source reqFrom reqTo demoRecs phonePath
        meetingPath st).loading = false ∧
    (fetchRecordings false source reqFrom reqTo demoRecs phonePath
        meetingPath st).error = some (errMsg e) ∧
    (∀ msg, e.message = some msg → msg ≠ "" → errMsg e = msg) ∧
    (e.message = none → errMsg e = e.asString) := by
  refine ⟨?_, ?_, ?_, ?_, ?_⟩
  · simp [fetchRecordings, hdisp]
  · simp [fetchRecordings, hdisp]
  · simp [fetchRecordings, hdisp]
  · intro msg hmsg hne
    simp [errMsg, jsOr, hmsg, hne]
  · intro hnone
    simp [errMsg, jsOr, hnone]

/-- C8 (witness): a failing phone fetch over a state holding stale data
from an earlier success. -/
theorem orchestrator_error_isolation_witness :
    (fetchRecordings false "phone" "2025-02-01" "2025-02-28" []
        (.error err8) (.ok { from_ := "x", to_ := "y", recordings := [] })
        st8).data = st8.data ∧
    (fetchRecordings false "phone" "2025-02-01" "2025-02-28" []
        (.error err8) (.ok { from_ := "x", to_ := "y", recordings := [] })
        st8).loading = false ∧
    (fetchRecordings false "phone" "2025-02-01" "2025-02-28" []
        (.error err8) (.ok { from_ := "x", to_ := "y", recordings := [] })
        st8).error = some (errMsg err8) ∧
    (∀ msg, err8.message = some msg → msg ≠ "" → errMsg err8 = msg) ∧
    (err8.message = none → errMsg err8 = err8.asString) :=
  orchestrator_error_isolation "phone" "2025-02-01" "2025-02-28" []
    (.error err8) (.ok { from_ := "x", to_ := "y", recordings := [] })
    st8 err8 rfl
